import Mathlib

/-!
Shallow embedding of `zipline/pipeline/data/dataset.py`:
the column-declaration → binding → materialization pipeline
(`Column`, `_BoundColumnDescr`, `BoundColumn`, `DataSetMeta`, `DataSet`).

External collaborators (`Term.validate_dtype`, the default-missing-value
table, `Term`'s base construction and static identity) are not part of the
repository source; they are modelled from the specification and marked as
such in their doc comments.
-/

namespace Zipline

/-- Modelled from the spec: the element-type (dtype) tags used by the
column system.  `int64` is the canonical dtype with no registered default
missing value (§8 of the spec). -/
inductive Dtype
  | bool
  | float64
  | int64
  | datetime64
  | object
deriving DecidableEq

/-- The numpy-style name of a dtype, as `dtype.name` renders in messages
and in `BoundColumn.__repr__`. -/
def Dtype.name : Dtype → String
  | .bool => "bool"
  | .float64 => "float64"
  | .int64 => "int64"
  | .datetime64 => "datetime64"
  | .object => "object"

/-- Modelled from the spec: missing-value sentinels.  Float NaN, the
datetime NaT sentinel and Python `None` are symbolic constructors; numeric
literals carry their value. -/
inductive MissingValue
  | nan
  | floatVal (v : Int)
  | intVal (v : Int)
  | boolVal (b : Bool)
  | natSentinel
  | pyNone
deriving DecidableEq

/-- Modelled from the spec: compatibility of an explicit missing value with
a dtype, as checked by the external dtype-validation collaborator. -/
def compatible : Dtype → MissingValue → Bool
  | .float64, .nan => true
  | .float64, .floatVal _ => true
  | .int64, .intVal _ => true
  | .bool, .boolVal _ => true
  | .datetime64, .natSentinel => true
  | .object, _ => true
  | _, _ => false

/-- Modelled from the spec: the table of default missing values per dtype
(`default_missing_value_for_dtype`).  `int64` has no entry. -/
def defaultMissingValue : Dtype → Option MissingValue
  | .bool => some (.boolVal false)
  | .float64 => some .nan
  | .int64 => none
  | .datetime64 => some .natSentinel
  | .object => some .pyNone

/-- Errors surfaced by dtype/missing-value validation and re-raised by the
binding descriptor. -/
inductive ColumnError
  | noDefaultMissingValue (msg : String)
  | mismatchedMissingValue (msg : String)
deriving DecidableEq

/-- Modelled from the spec: `Term.validate_dtype(termname, dtype,
missing_value)` — if a missing value was given it is checked for
compatibility; otherwise the default for the dtype is looked up, failing
with `NoDefaultMissingValue` when there is none. -/
def validateDtype (termname : String) (dtype : Dtype)
    (missing_value : Option MissingValue) :
    Except ColumnError (Dtype × MissingValue) :=
  match missing_value with
  | some v =>
      if compatible dtype v then .ok (dtype, v)
      else .error (.mismatchedMissingValue termname)
  | none =>
      match defaultMissingValue dtype with
      | some v => .ok (dtype, v)
      | none => .error (.noDefaultMissingValue termname)

/-- `Column`: an abstract column of data, not yet associated with a
dataset (`Column.__init__` stores `dtype` and `missing_value`;
`NotSpecified` is `none`). -/
structure Column where
  dtype : Dtype
  missing_value : Option MissingValue
deriving DecidableEq

/-- `_BoundColumnDescr`: holds the validated `(dtype, missing_value)` pair
and the field name. -/
structure BoundColumnDescr where
  dtype : Dtype
  missing_value : MissingValue
  name : String
deriving DecidableEq

/-- The augmented error message `_BoundColumnDescr.__init__` raises when
`Term.validate_dtype` reports a missing default missing value
(`{name!r}` renders the name in single quotes, `{dtype}` the dtype name). -/
def noDefaultMsg (name : String) (dtype : Dtype) : String :=
  "Failed to create Column with name \x27" ++ name ++ "\x27 and" ++
  " dtype " ++ dtype.name ++ " because no missing_value was provided\n\n" ++
  "Columns with dtype " ++ dtype.name ++ " require a missing_value.\n" ++
  "Please pass missing_value to Column() or use a different" ++
  " dtype."

/-- `_BoundColumnDescr.__init__`: resolves `(dtype, missing_value)` through
`Term.validate_dtype`, re-raising `NoDefaultMissingValue` with the
augmented message that names the field and the dtype. -/
def boundColumnDescrInit (dtype : Dtype) (missing_value : Option MissingValue)
    (name : String) : Except ColumnError BoundColumnDescr :=
  match validateDtype ("Column(name=\x27" ++ name ++ "\x27)") dtype
      missing_value with
  | .ok (d, v) => .ok { dtype := d, missing_value := v, name := name }
  | .error (.noDefaultMissingValue _) =>
      .error (.noDefaultMissingValue (noDefaultMsg name dtype))
  | .error e => .error e

/-- `Column.bind(name)`: produce the binding descriptor for this
declaration under the given field name. -/
def Column.bind (c : Column) (name : String) :
    Except ColumnError BoundColumnDescr :=
  boundColumnDescrInit c.dtype c.missing_value name

/-- A schema type (a `DataSet` subclass as produced by `DataSetMeta`).
`id` stands for CPython object identity (distinct classes have distinct
ids); `descrs` is the attribute-lookup chain of binding descriptors, own
declarations first, then bases in order; `column_names` is the
`_column_names` registry. -/
structure DataSetType where
  id : Nat
  name : String
  domain : Option String
  descrs : List (String × BoundColumnDescr)
  column_names : List String
deriving DecidableEq

/-- The validity-mask expression of a term; `BoundColumn.mask` is the
fixed `AssetExists()` expression. -/
inductive Mask
  | assetExists
deriving DecidableEq

/-- Inputs of a term; `BoundColumn.inputs` is the empty tuple. -/
inductive TermInput
deriving DecidableEq

/-- `BoundColumn`: a column concretely bound to a dataset, together with
the attributes the base term stores (`domain` from `dataset.domain`, the
class constants `mask`, `extra_input_rows`, `inputs`). -/
structure BoundColumn where
  dtype : Dtype
  missing_value : MissingValue
  dataset : DataSetType
  name : String
  domain : Option String
  mask : Mask
  extra_input_rows : Nat
  inputs : List TermInput
deriving DecidableEq

/-- `BoundColumn.__new__`: forwards to the base term constructor with
`domain = dataset.domain`; the class attributes `mask = AssetExists()`,
`extra_input_rows = 0`, `inputs = ()` are fixed.  No validation is
performed here. -/
def BoundColumn.new (dtype : Dtype) (missing_value : MissingValue)
    (dataset : DataSetType) (name : String) : BoundColumn :=
  { dtype := dtype
    missing_value := missing_value
    dataset := dataset
    name := name
    domain := dataset.domain
    mask := .assetExists
    extra_input_rows := 0
    inputs := [] }

/-- `_BoundColumnDescr.__get__(instance, owner)`: materialize a
`BoundColumn` for the accessing owner. -/
def BoundColumnDescr.resolve (d : BoundColumnDescr) (owner : DataSetType) :
    BoundColumn :=
  BoundColumn.new d.dtype d.missing_value owner d.name

/-- Modelled from the spec: the base term's static identity over the
attributes the term stores (`domain`, `dtype`, `missing_value`, `mask`,
`extra_input_rows`, `inputs`). -/
def termStaticIdentity (domain : Option String) (dtype : Dtype)
    (missing_value : MissingValue) (mask : Mask) (extra_input_rows : Nat)
    (inputs : List TermInput) :
    Option String × Dtype × MissingValue × Mask × Nat × List TermInput :=
  (domain, dtype, missing_value, mask, extra_input_rows, inputs)

/-- `BoundColumn.static_identity`: the base term's identity extended with
`(dataset, name)`. -/
def BoundColumn.static_identity (b : BoundColumn) :
    (Option String × Dtype × MissingValue × Mask × Nat × List TermInput) ×
      DataSetType × String :=
  (termStaticIdentity b.domain b.dtype b.missing_value b.mask
      b.extra_input_rows b.inputs,
    b.dataset, b.name)

/-- Attribute lookup along a descriptor chain: first entry with the given
key wins (own declarations precede inherited ones). -/
def lookupDescr : List (String × BoundColumnDescr) → String →
    Option BoundColumnDescr
  | [], _ => none
  | (k, d) :: rest, f => if k = f then some d else lookupDescr rest f

/-- Bind every `Column` attribute of the class dict to its attribute name
(the loop body of `DataSetMeta.__new__`); the first binding failure
propagates, as the first raised exception would. -/
def bindAll : List (String × Column) →
    Except ColumnError (List (String × BoundColumnDescr))
  | [] => .ok []
  | (k, c) :: rest =>
      match c.bind k with
      | .error e => .error e
      | .ok d =>
          match bindAll rest with
          | .error e => .error e
          | .ok ds => .ok ((k, d) :: ds)

/-- The descriptors a new type inherits from its bases, in base order. -/
def inheritedDescrs (bases : List DataSetType) :
    List (String × BoundColumnDescr) :=
  bases.foldr (fun b acc => b.descrs ++ acc) []

/-- The column names a new type inherits from its bases
(`set().union(*(base._column_names for base in bases))`). -/
def inheritedNames (bases : List DataSetType) : List String :=
  bases.foldr (fun b acc => b.column_names ++ acc) []

/-- Attribute lookup for `domain` when the new class does not declare it:
the first base supplies it; with no bases the `DataSet` root default
`domain = None` applies. -/
def inheritDomain : List DataSetType → Option String
  | [] => none
  | b :: _ => b.domain

/-- `DataSetMeta.__new__`: bind every directly declared `Column` under its
attribute name, install the descriptors ahead of the inherited ones, and
set `_column_names` to the union of the directly declared names with every
base's names.  `domainDecl` is `some d` when the class dict declares
`domain = d`, `none` otherwise. -/
def DataSetMeta.new (id : Nat) (name : String) (bases : List DataSetType)
    (domainDecl : Option (Option String)) (dict : List (String × Column)) :
    Except ColumnError DataSetType :=
  match bindAll dict with
  | .error e => .error e
  | .ok own =>
      .ok { id := id
            name := name
            domain := domainDecl.getD (inheritDomain bases)
            descrs := own ++ inheritedDescrs bases
            column_names := dict.map Prod.fst ++ inheritedNames bases }

/-- The field-name set of a schema type (`_column_names` as a set). -/
def DataSetType.fieldNames (T : DataSetType) : Finset String :=
  T.column_names.toFinset

/-- The contribution of one registered name to the `columns` view:
`getattr(self, colname)` resolved against the accessing type (empty when
no descriptor exists, which cannot happen for well-formed types). -/
def colAt (T : DataSetType) (n : String) : Finset BoundColumn :=
  match lookupDescr T.descrs n with
  | some d => {d.resolve T}
  | none => ∅

/-- `DataSetMeta.columns`: the frozenset of `getattr(self, colname)` over
the registered column names, i.e. each descriptor resolved against the
accessing type itself. -/
def DataSetType.columns (T : DataSetType) : Finset BoundColumn :=
  T.fieldNames.biUnion (colAt T)

/-- Field access `getattr(T, f)` for a column name: descriptor lookup
followed by resolution against `T`. -/
def DataSetType.getColumn (T : DataSetType) (f : String) :
    Option BoundColumn :=
  (lookupDescr T.descrs f).map fun d => d.resolve T

/-- Well-formedness of a schema type as `DataSetMeta` produces it: every
registered column name has a descriptor, and every stored descriptor's
name equals the attribute key it is stored under. -/
def DataSetType.WF (T : DataSetType) : Prop :=
  (∀ n ∈ T.column_names, ∃ d, lookupDescr T.descrs n = some d) ∧
  (∀ n d, lookupDescr T.descrs n = some d → d.name = n)

/-- Faithful model of Python's `str.join` as used by
`BoundColumn.qualname` (`'.'.join([...])`). -/
def strJoin (sep : String) : List String → String
  | [] => ""
  | [x] => x
  | x :: xs => x ++ sep ++ strJoin sep xs

/-- `BoundColumn.qualname`: `'.'.join([self.dataset.__name__, self.name])`. -/
def BoundColumn.qualname (b : BoundColumn) : String :=
  strJoin "." [b.dataset.name, b.name]

/-- `BoundColumn.__repr__`: `"{qualname}::{dtype}"`. -/
def BoundColumn.reprStr (b : BoundColumn) : String :=
  b.qualname ++ "::" ++ b.dtype.name

/-! Concrete sample values used by witness theorems. -/

/-- A concrete schema type with one registered column, for witnesses. -/
def sampleDescr : BoundColumnDescr :=
  { dtype := .float64, missing_value := .nan, name := "price" }

/-- A concrete owner type named `PriceData` declaring `price`. -/
def sampleOwner : DataSetType :=
  { id := 0
    name := "PriceData"
    domain := none
    descrs := [("price", sampleDescr)]
    column_names := ["price"] }

/-- A concrete subclass of the sample owner declaring nothing new, for
witnesses: `DataSetMeta.new 1 "Derived" [sampleOwner] none []`. -/
def derivedSample : DataSetType :=
  { id := 1
    name := "Derived"
    domain := none
    descrs := [("price", sampleDescr)]
    column_names := ["price"] }

/-- A concrete subclass of the sample owner declaring one extra `volume`
column, for the C6 witness. -/
def derivedVol : DataSetType :=
  { id := 3
    name := "DerivedVol"
    domain := none
    descrs := [("volume", ⟨.float64, .nan, "volume"⟩),
               ("price", sampleDescr)]
    column_names := ["volume", "price"] }

/-! Supporting lemmas (shared across claims). -/

/-- Attribute lookup distributes over concatenation of descriptor chains:
the left chain is consulted first. -/
theorem lookupDescr_append (xs ys : List (String × BoundColumnDescr))
    (f : String) :
    lookupDescr (xs ++ ys) f =
      match lookupDescr xs f with
      | some d => some d
      | none => lookupDescr ys f := by
  induction xs with
  | nil => rfl
  | cons p rest ih =>
      obtain ⟨k, d⟩ := p
      by_cases hk : k = f <;> simp [lookupDescr, hk, ih]

/-- A key that appears in a chain has a descriptor. -/
theorem lookupDescr_of_mem_keys (xs : List (String × BoundColumnDescr))
    (f : String) (h : f ∈ xs.map Prod.fst) :
    ∃ d, lookupDescr xs f = some d := by
  induction xs with
  | nil => simp at h
  | cons p rest ih =>
      obtain ⟨k, d⟩ := p
      by_cases hk : k = f
      · exact ⟨d, by simp [lookupDescr, hk]⟩
      · simp [lookupDescr, hk]
        rcases List.mem_cons.mp h with h1 | h1
        · exact absurd h1.symm hk
        · exact ih h1

/-- A successful `Column.bind` keeps the declared dtype and records the
field name on the descriptor. -/
theorem bind_ok_fields (c : Column) (nm : String) (d : BoundColumnDescr)
    (h : c.bind nm = .ok d) : d.dtype = c.dtype ∧ d.name = nm := by
  obtain ⟨dt, mv⟩ := c
  cases mv with
  | none =>
      cases hdef : defaultMissingValue dt <;>
        simp [Column.bind, boundColumnDescrInit, validateDtype, hdef] at h <;>
        simp [← h]
  | some v =>
      by_cases hc : compatible dt v <;>
        simp [Column.bind, boundColumnDescrInit, validateDtype, hc] at h
      simp [← h]

/-- A successful `bindAll` binds exactly the dict keys, in order. -/
theorem bindAll_keys (dict : List (String × Column))
    (ds : List (String × BoundColumnDescr)) (h : bindAll dict = .ok ds) :
    ds.map Prod.fst = dict.map Prod.fst := by
  induction dict generalizing ds with
  | nil =>
      simp only [bindAll] at h
      injection h with h2
      subst h2
      rfl
  | cons p rest ih =>
      obtain ⟨k, c⟩ := p
      cases hb : c.bind k with
      | error e => simp [bindAll, hb] at h
      | ok d =>
          cases hrest : bindAll rest with
          | error e => simp [bindAll, hb, hrest] at h
          | ok ds' =>
              simp [bindAll, hb, hrest] at h
              simp [← h, ih ds' hrest]

/-- Every descriptor stored by a successful `bindAll` carries the key it
is stored under as its name. -/
theorem bindAll_lookup_name (dict : List (String × Column))
    (ds : List (String × BoundColumnDescr)) (h : bindAll dict = .ok ds)
    (n : String) (d : BoundColumnDescr) (hl : lookupDescr ds n = some d) :
    d.name = n := by
  induction dict generalizing ds with
  | nil =>
      simp only [bindAll] at h
      injection h with h2
      subst h2
      simp [lookupDescr] at hl
  | cons p rest ih =>
      obtain ⟨k, c⟩ := p
      cases hb : c.bind k with
      | error e => simp [bindAll, hb] at h
      | ok d0 =>
          cases hrest : bindAll rest with
          | error e => simp [bindAll, hb, hrest] at h
          | ok ds' =>
              simp [bindAll, hb, hrest] at h
              subst h
              by_cases hk : k = n
              · subst hk
                simp [lookupDescr] at hl
                rcases hl with rfl
                exact (bind_ok_fields c k _ hb).2
              · simp [lookupDescr, hk] at hl
                exact ih ds' hrest hl

/-- A name registered by some base has a descriptor in the inherited
chain. -/
theorem lookupDescr_inherited_exists (bases : List DataSetType)
    (n : String) (b : DataSetType) (hb : b ∈ bases)
    (hwf : DataSetType.WF b) (hn : n ∈ b.column_names) :
    ∃ d, lookupDescr (inheritedDescrs bases) n = some d := by
  induction bases with
  | nil => simp at hb
  | cons b0 rest ih =>
      rw [show inheritedDescrs (b0 :: rest) =
            b0.descrs ++ inheritedDescrs rest from rfl,
        lookupDescr_append]
      rcases List.mem_cons.mp hb with rfl | hb'
      · obtain ⟨d, hd⟩ := hwf.1 n hn
        exact ⟨d, by simp [hd]⟩
      · obtain ⟨d, hd⟩ := ih hb'
        cases h0 : lookupDescr b0.descrs n with
        | some d0 => exact ⟨d0, by simp⟩
        | none => exact ⟨d, by simp [hd]⟩

/-- A descriptor found in the inherited chain comes from some base. -/
theorem lookupDescr_inherited_mem (bases : List DataSetType)
    (n : String) (d : BoundColumnDescr)
    (h : lookupDescr (inheritedDescrs bases) n = some d) :
    ∃ b ∈ bases, lookupDescr b.descrs n = some d := by
  induction bases with
  | nil => simp [inheritedDescrs, lookupDescr] at h
  | cons b0 rest ih =>
      rw [show inheritedDescrs (b0 :: rest) =
            b0.descrs ++ inheritedDescrs rest from rfl,
        lookupDescr_append] at h
      cases h0 : lookupDescr b0.descrs n with
      | some d0 =>
          rw [h0] at h
          simp at h
          exact ⟨b0, by simp, by rw [h0, h]⟩
      | none =>
          rw [h0] at h
          simp at h
          obtain ⟨b, hb, hd⟩ := ih h
          exact ⟨b, by simp [hb], hd⟩

/-- A name in the inherited name union comes from some base. -/
theorem mem_inheritedNames (bases : List DataSetType) (n : String)
    (h : n ∈ inheritedNames bases) :
    ∃ b ∈ bases, n ∈ b.column_names := by
  induction bases with
  | nil => simp [inheritedNames] at h
  | cons b0 rest ih =>
      rw [show inheritedNames (b0 :: rest) =
            b0.column_names ++ inheritedNames rest from rfl] at h
      rcases List.mem_append.mp h with h' | h'
      · exact ⟨b0, by simp, h'⟩
      · obtain ⟨b, hb, hn⟩ := ih h'
        exact ⟨b, by simp [hb], hn⟩

/-- Inverting a successful `DataSetMeta.new`: the resulting type is the
record built from the bound dict and the inherited pieces. -/
theorem DataSetMeta.new_ok (i : Nat) (nm : String)
    (bases : List DataSetType) (domainDecl : Option (Option String))
    (dict : List (String × Column)) (T : DataSetType)
    (h : DataSetMeta.new i nm bases domainDecl dict = .ok T) :
    ∃ own, bindAll dict = .ok own ∧
      T = { id := i
            name := nm
            domain := domainDecl.getD (inheritDomain bases)
            descrs := own ++ inheritedDescrs bases
            column_names := dict.map Prod.fst ++ inheritedNames bases } := by
  cases hb : bindAll dict with
  | error e => simp [DataSetMeta.new, hb] at h
  | ok own =>
      simp [DataSetMeta.new, hb] at h
      exact ⟨own, rfl, h.symm⟩

/-- `DataSetMeta.__new__` preserves well-formedness: if every base is
well-formed then so is the new type. -/
theorem WF_new (i : Nat) (nm : String) (bases : List DataSetType)
    (domainDecl : Option (Option String)) (dict : List (String × Column))
    (T : DataSetType)
    (h : DataSetMeta.new i nm bases domainDecl dict = .ok T)
    (hwf : ∀ b ∈ bases, DataSetType.WF b) : DataSetType.WF T := by
  obtain ⟨own, hown, rfl⟩ := DataSetMeta.new_ok i nm bases domainDecl dict T h
  constructor
  · intro n hn
    rcases List.mem_append.mp hn with hn' | hn'
    · obtain ⟨d, hd⟩ := lookupDescr_of_mem_keys own n
        (by rw [bindAll_keys dict own hown]; exact hn')
      exact ⟨d, by rw [lookupDescr_append, hd]⟩
    · obtain ⟨b, hb, hnb⟩ := mem_inheritedNames bases n hn'
      obtain ⟨d, hd⟩ :=
        lookupDescr_inherited_exists bases n b hb (hwf b hb) hnb
      cases h0 : lookupDescr own n with
      | some d0 => exact ⟨d0, by rw [lookupDescr_append, h0]⟩
      | none => exact ⟨d, by rw [lookupDescr_append, h0, hd]⟩
  · intro n d hd
    rw [lookupDescr_append] at hd
    cases h0 : lookupDescr own n with
    | some d0 =>
        rw [h0] at hd
        simp at hd
        exact hd ▸ bindAll_lookup_name dict own hown n d0 h0
    | none =>
        rw [h0] at hd
        simp at hd
        obtain ⟨b, hb, hdb⟩ := lookupDescr_inherited_mem bases n d hd
        exact (hwf b hb).2 n d hdb

/-! Claim theorems. -/

/-- C1: two Bound Columns produced by `BoundColumn.__new__` have equal
static identities if and only if their `(dtype, missing_value, dataset,
name)` tuples are equal; the extra identity attributes (`domain`, `mask`,
`inputs`, `extra_input_rows`) never distinguish two Bound Columns whose
tuples agree, being fixed constants or derived from the owner. -/
theorem C1_identity_iff_tuple (d₁ d₂ : Dtype) (mv₁ mv₂ : MissingValue)
    (ds₁ ds₂ : DataSetType) (n₁ n₂ : String) :
    (BoundColumn.new d₁ mv₁ ds₁ n₁).static_identity =
      (BoundColumn.new d₂ mv₂ ds₂ n₂).static_identity ↔
    (d₁ = d₂ ∧ mv₁ = mv₂ ∧ ds₁ = ds₂ ∧ n₁ = n₂) := by
  constructor
  · intro h
    simp [BoundColumn.static_identity, BoundColumn.new, termStaticIdentity,
      Prod.ext_iff] at h
    tauto
  · rintro ⟨rfl, rfl, rfl, rfl⟩
    rfl

/-- C2: for every valid `(dtype, missing_value)` pair, every field name
and every owner, `Column(dtype, missing_value).bind(name)` succeeds and
resolving the descriptor against the owner yields a Bound Column whose
dtype, missing value, dataset and name exactly equal the inputs. -/
theorem C2_bind_resolve_exact (d : Dtype) (mv : MissingValue)
    (name : String) (owner : DataSetType)
    (h : compatible d mv = true) :
    ∃ descr, Column.bind ⟨d, some mv⟩ name = .ok descr ∧
      (descr.resolve owner).dtype = d ∧
      (descr.resolve owner).missing_value = mv ∧
      (descr.resolve owner).dataset = owner ∧
      (descr.resolve owner).name = name := by
  refine ⟨⟨d, mv, name⟩, ?_, rfl, rfl, rfl, rfl⟩
  simp [Column.bind, boundColumnDescrInit, validateDtype, h]

/-- Witness for C2 at `Column(float64, NaN)` bound as `price` on
`PriceData`. -/
theorem C2_bind_resolve_exact_witness :
    compatible .float64 .nan = true ∧
    ∃ descr, Column.bind ⟨.float64, some .nan⟩ "price" = .ok descr ∧
      (descr.resolve sampleOwner).dtype = .float64 ∧
      (descr.resolve sampleOwner).missing_value = .nan ∧
      (descr.resolve sampleOwner).dataset = sampleOwner ∧
      (descr.resolve sampleOwner).name = "price" :=
  ⟨by decide, C2_bind_resolve_exact .float64 .nan "price" sampleOwner
    (by decide)⟩

/-- C4: two resolutions of the same binding descriptor against the same
owner yield Bound Columns with equal identity keys, regardless of
instance identity. -/
theorem C4_resolve_idempotent (d : BoundColumnDescr) (owner : DataSetType)
    (b₁ b₂ : BoundColumn) (h₁ : b₁ = d.resolve owner)
    (h₂ : b₂ = d.resolve owner) :
    b₁.static_identity = b₂.static_identity := by
  subst h₁
  subst h₂
  rfl

/-- Witness for C4 at the sample descriptor and owner. -/
theorem C4_resolve_idempotent_witness :
    sampleDescr.resolve sampleOwner = sampleDescr.resolve sampleOwner ∧
    (sampleDescr.resolve sampleOwner).static_identity =
      (sampleDescr.resolve sampleOwner).static_identity :=
  ⟨rfl, C4_resolve_idempotent sampleDescr sampleOwner _ _ rfl rfl⟩

/-- C8: every Bound Column's qualified name is its owner's declared type
name, a dot, and the field name, and its repr is the qualified name
followed by `::` and the dtype's name. -/
theorem C8_qualname_repr (b : BoundColumn) :
    b.qualname = b.dataset.name ++ "." ++ b.name ∧
    b.reprStr = b.dataset.name ++ "." ++ b.name ++ "::" ++
      Dtype.name b.dtype := by
  constructor
  · rfl
  · rfl

/-- C9: after a binding descriptor exists, field access (`resolve`) and
Bound Column construction are total and validation-free: `resolve` is
exactly a `BoundColumn.__new__` call on the descriptor's stored fields,
and `BoundColumn.__new__` accepts every input unchecked, storing the
given dtype, missing value, owner and name verbatim. -/
theorem C9_no_validation_on_access (descr : BoundColumnDescr)
    (owner : DataSetType) (dtype : Dtype) (mv : MissingValue)
    (name : String) :
    descr.resolve owner =
      BoundColumn.new descr.dtype descr.missing_value owner descr.name ∧
    (BoundColumn.new dtype mv owner name).dtype = dtype ∧
    (BoundColumn.new dtype mv owner name).missing_value = mv ∧
    (BoundColumn.new dtype mv owner name).dataset = owner ∧
    (BoundColumn.new dtype mv owner name).name = name :=
  ⟨rfl, rfl, rfl, rfl, rfl⟩

/-- C10: a Bound Column obtained by accessing a registered field on a
schema type carries that type's `domain`; a type built without a `domain`
declaration over bases whose domains are all the `DataSet` default `None`
has `domain = None`, and so do all the columns accessed on it. -/
theorem C10_domain_from_owner (T : DataSetType) (f : String)
    (d : BoundColumnDescr) (h : lookupDescr T.descrs f = some d)
    (i : Nat) (nm : String) (bases : List DataSetType)
    (dict : List (String × Column)) (T₂ : DataSetType)
    (hT₂ : DataSetMeta.new i nm bases none dict = .ok T₂)
    (hb : ∀ b ∈ bases, b.domain = none) :
    (d.resolve T).domain = T.domain ∧ T₂.domain = none ∧
    ∀ f₂ d₂, lookupDescr T₂.descrs f₂ = some d₂ →
      (d₂.resolve T₂).domain = none := by
  obtain ⟨own, hown, rfl⟩ := DataSetMeta.new_ok i nm bases none dict T₂ hT₂
  have hdom : inheritDomain bases = none := by
    cases bases with
    | nil => rfl
    | cons b0 rest => exact hb b0 (by simp)
  refine ⟨rfl, by simp [hdom], ?_⟩
  intro f₂ d₂ _
  simp [BoundColumnDescr.resolve, BoundColumn.new, hdom]

/-- C3: for every dtype with no registered default missing value,
binding a column declaration of that dtype with no explicit missing value
fails at binding-descriptor construction time with a
`NoDefaultMissingValue` error whose message contains the field name and
the dtype's name. -/
theorem C3_no_default_missing_value_error (d : Dtype)
    (hd : defaultMissingValue d = none) (name : String) :
    ∃ msg,
      Column.bind ⟨d, none⟩ name = .error (.noDefaultMissingValue msg) ∧
      name.data <:+: msg.data ∧ (Dtype.name d).data <:+: msg.data := by
  refine ⟨noDefaultMsg name d, ?_, ?_, ?_⟩
  · simp [Column.bind, boundColumnDescrInit, validateDtype, hd]
  · refine ⟨("Failed to create Column with name \x27").data,
      ("\x27 and" ++ " dtype " ++ Dtype.name d ++
        " because no missing_value was provided\n\n" ++
        "Columns with dtype " ++ Dtype.name d ++
        " require a missing_value.\n" ++
        "Please pass missing_value to Column() or use a different" ++
        " dtype.").data, ?_⟩
    simp [noDefaultMsg, String.data_append, List.append_assoc]
  · refine ⟨("Failed to create Column with name \x27" ++ name ++
        "\x27 and" ++ " dtype ").data,
      (" because no missing_value was provided\n\n" ++
        "Columns with dtype " ++ Dtype.name d ++
        " require a missing_value.\n" ++
        "Please pass missing_value to Column() or use a different" ++
        " dtype.").data, ?_⟩
    simp [noDefaultMsg, String.data_append, List.append_assoc]

/-- Witness for C3: `Column(int64)` bound as `volume` fails and the
message mentions `volume` and `int64`. -/
theorem C3_no_default_missing_value_error_witness :
    defaultMissingValue .int64 = none ∧
    ∃ msg,
      Column.bind ⟨.int64, none⟩ "volume" =
        .error (.noDefaultMissingValue msg) ∧
      "volume".data <:+: msg.data ∧ (Dtype.name .int64).data <:+: msg.data :=
  ⟨rfl, C3_no_default_missing_value_error .int64 rfl "volume"⟩

/-- C5: a subclass that does not redeclare a field resolves the field
through the very same binding descriptor as its base, yet the two
accesses produce unequal Bound Columns with unequal identity keys,
because the owner differs. -/
theorem C5_owner_sensitivity (Base : DataSetType) (f : String)
    (d : BoundColumnDescr) (hf : lookupDescr Base.descrs f = some d)
    (i : Nat) (nm : String) (domDecl : Option (Option String))
    (Derived : DataSetType)
    (hD : DataSetMeta.new i nm [Base] domDecl [] = .ok Derived)
    (hne : Derived ≠ Base) :
    lookupDescr Derived.descrs f = some d ∧
    d.resolve Base ≠ d.resolve Derived ∧
    (d.resolve Base).static_identity ≠
      (d.resolve Derived).static_identity := by
  obtain ⟨own, hown, rfl⟩ :=
    DataSetMeta.new_ok i nm [Base] domDecl [] Derived hD
  simp only [bindAll] at hown
  injection hown with h2
  subst h2
  refine ⟨by simpa [inheritedDescrs] using hf, ?_, ?_⟩
  · intro heq
    have hds := congrArg BoundColumn.dataset heq
    simp [BoundColumnDescr.resolve, BoundColumn.new] at hds
    exact hne hds.symm
  · intro heq
    have hds := congrArg (fun p => p.2.1) heq
    simp [BoundColumn.static_identity, BoundColumnDescr.resolve,
      BoundColumn.new] at hds
    exact hne hds.symm

/-- Witness for C5: `Derived(PriceData)` redeclaring nothing shares the
`price` descriptor with its base but yields a differently-owned column. -/
theorem C5_owner_sensitivity_witness :
    lookupDescr sampleOwner.descrs "price" = some sampleDescr ∧
    DataSetMeta.new 1 "Derived" [sampleOwner] none [] = .ok derivedSample ∧
    derivedSample ≠ sampleOwner ∧
    (lookupDescr derivedSample.descrs "price" = some sampleDescr ∧
      sampleDescr.resolve sampleOwner ≠ sampleDescr.resolve derivedSample ∧
      (sampleDescr.resolve sampleOwner).static_identity ≠
        (sampleDescr.resolve derivedSample).static_identity) :=
  ⟨by decide, rfl, by decide,
    C5_owner_sensitivity sampleOwner "price" sampleDescr (by decide)
      1 "Derived" none derivedSample rfl (by decide)⟩

/-- C7: redeclaring an inherited field name raises no error; the directly
declared descriptor shadows the inherited one, and accessing the field on
the new type yields the redeclared dtype, not the base's. -/
theorem C7_shadowing_redeclaration (Base : DataSetType) (a : String)
    (dOld : BoundColumnDescr)
    (hBase : lookupDescr Base.descrs a = some dOld)
    (col : Column) (rest : List (String × Column)) (i : Nat) (nm : String)
    (domDecl : Option (Option String))
    (ds : List (String × BoundColumnDescr))
    (hbind : bindAll ((a, col) :: rest) = .ok ds) :
    ∃ D dNew,
      DataSetMeta.new i nm [Base] domDecl ((a, col) :: rest) = .ok D ∧
      lookupDescr D.descrs a = some dNew ∧
      dNew.dtype = col.dtype ∧
      D.getColumn a = some (dNew.resolve D) ∧
      (dNew.resolve D).dtype = col.dtype ∧
      (col.dtype ≠ dOld.dtype → (dNew.resolve D).dtype ≠ dOld.dtype) := by
  cases hb : col.bind a with
  | error e => simp [bindAll, hb] at hbind
  | ok d0 =>
      cases hrest : bindAll rest with
      | error e => simp [bindAll, hb, hrest] at hbind
      | ok ds' =>
          simp [bindAll, hb, hrest] at hbind
          subst hbind
          refine ⟨⟨i, nm, domDecl.getD (inheritDomain [Base]),
              ((a, d0) :: ds') ++ inheritedDescrs [Base],
              ((a, col) :: rest).map Prod.fst ++ inheritedNames [Base]⟩,
            d0, ?_, ?_, ?_, ?_, ?_, ?_⟩
          · simp [DataSetMeta.new, bindAll, hb, hrest]
          · simp [lookupDescr]
          · exact (bind_ok_fields col a d0 hb).1
          · simp [DataSetType.getColumn, lookupDescr]
          · exact (bind_ok_fields col a d0 hb).1
          · intro hdiff
            simpa [BoundColumnDescr.resolve, BoundColumn.new,
              (bind_ok_fields col a d0 hb).1] using hdiff

/-- Witness for C7: redeclaring `price` as a `bool` column on a subclass
of `PriceData` succeeds and shadows the inherited `float64` declaration. -/
theorem C7_shadowing_redeclaration_witness :
    lookupDescr sampleOwner.descrs "price" = some sampleDescr ∧
    bindAll [("price", (⟨.bool, some (.boolVal true)⟩ : Column))] =
      .ok [("price", ⟨.bool, .boolVal true, "price"⟩)] ∧
    (∃ D dNew,
      DataSetMeta.new 2 "DerivedBool" [sampleOwner] none
        [("price", ⟨.bool, some (.boolVal true)⟩)] = .ok D ∧
      lookupDescr D.descrs "price" = some dNew ∧
      dNew.dtype = .bool ∧
      D.getColumn "price" = some (dNew.resolve D) ∧
      (dNew.resolve D).dtype = .bool ∧
      ((Dtype.bool ≠ sampleDescr.dtype →
        (dNew.resolve D).dtype ≠ sampleDescr.dtype))) :=
  ⟨by decide, rfl,
    C7_shadowing_redeclaration sampleOwner "price" sampleDescr (by decide)
      ⟨.bool, some (.boolVal true)⟩ [] 2 "DerivedBool" none
      [("price", ⟨.bool, .boolVal true, "price"⟩)] rfl⟩

/-- The inherited-name union, viewed as a finite set, is the fold of the
bases' field-name sets. -/
theorem inheritedNames_toFinset (bases : List DataSetType) :
    (inheritedNames bases).toFinset =
      bases.foldr (fun b acc => b.fieldNames ∪ acc) ∅ := by
  induction bases with
  | nil => rfl
  | cons b rest ih =>
      show (b.column_names ++ inheritedNames rest).toFinset = _
      simp [List.toFinset_append, ih, DataSetType.fieldNames]

/-- C6: a schema type's field names are the union of its directly
declared names with every base's field names (empty union for none), and
its `columns` view holds exactly one Bound Column per field name, each
owned by the type itself. -/
theorem C6_inheritance_union (i : Nat) (nm : String)
    (bases : List DataSetType) (domDecl : Option (Option String))
    (dict : List (String × Column)) (T : DataSetType)
    (hT : DataSetMeta.new i nm bases domDecl dict = .ok T)
    (hwf : ∀ b ∈ bases, DataSetType.WF b) :
    T.fieldNames = (dict.map Prod.fst).toFinset ∪
      bases.foldr (fun b acc => b.fieldNames ∪ acc) ∅ ∧
    (∀ n ∈ T.fieldNames, ∃ d, lookupDescr T.descrs n = some d ∧
      d.name = n ∧ d.resolve T ∈ T.columns) ∧
    T.columns.card = T.fieldNames.card ∧
    (∀ c ∈ T.columns, c.dataset = T) := by
  have hTwf : T.WF := WF_new i nm bases domDecl dict T hT hwf
  obtain ⟨own, hown, hTeq⟩ :=
    DataSetMeta.new_ok i nm bases domDecl dict T hT
  refine ⟨?_, ?_, ?_, ?_⟩
  · rw [hTeq]
    show (dict.map Prod.fst ++ inheritedNames bases).toFinset = _
    rw [List.toFinset_append, inheritedNames_toFinset]
  · intro n hn
    obtain ⟨d, hd⟩ := hTwf.1 n (List.mem_toFinset.mp hn)
    refine ⟨d, hd, hTwf.2 n d hd, ?_⟩
    exact Finset.mem_biUnion.mpr ⟨n, hn, by simp [colAt, hd]⟩
  · have hdisj : ∀ x ∈ T.fieldNames, ∀ y ∈ T.fieldNames, x ≠ y →
        Disjoint (colAt T x) (colAt T y) := by
      intro x hx y hy hxy
      obtain ⟨dx, hdx⟩ := hTwf.1 x (List.mem_toFinset.mp hx)
      obtain ⟨dy, hdy⟩ := hTwf.1 y (List.mem_toFinset.mp hy)
      simp [colAt, hdx, hdy]
      intro hc
      have hnames := congrArg BoundColumn.name hc
      simp [BoundColumnDescr.resolve, BoundColumn.new] at hnames
      exact absurd ((hTwf.2 x dx hdx) ▸ (hTwf.2 y dy hdy) ▸ hnames.symm) hxy
    rw [DataSetType.columns, Finset.card_biUnion hdisj]
    calc ∑ n ∈ T.fieldNames, (colAt T n).card
        = ∑ n ∈ T.fieldNames, 1 := by
          refine Finset.sum_congr rfl ?_
          intro n hn
          obtain ⟨d, hd⟩ := hTwf.1 n (List.mem_toFinset.mp hn)
          simp [colAt, hd]
      _ = T.fieldNames.card := by simp
  · intro c hc
    obtain ⟨n, _, hcn⟩ := Finset.mem_biUnion.mp hc
    rcases hl : lookupDescr T.descrs n with _ | d
    · simp [colAt, hl] at hcn
    · simp [colAt, hl] at hcn
      rw [hcn]
      rfl

/-- The sample owner is well-formed. -/
theorem sampleOwner_WF : DataSetType.WF sampleOwner := by
  constructor
  · intro n hn
    simp [sampleOwner] at hn
    subst hn
    exact ⟨sampleDescr, by decide⟩
  · intro n d hd
    simp [sampleOwner, lookupDescr] at hd
    rcases hd with ⟨h1, h2⟩
    rw [← h2, ← h1]
    rfl

/-- Witness for C6: `DerivedVol(PriceData)` adding `volume` has field
names `{volume, price}` and two columns, both owned by itself. -/
theorem C6_inheritance_union_witness :
    DataSetMeta.new 3 "DerivedVol" [sampleOwner] none
      [("volume", ⟨.float64, none⟩)] = .ok derivedVol ∧
    (∀ b ∈ [sampleOwner], DataSetType.WF b) ∧
    (derivedVol.fieldNames =
        ([("volume", (⟨.float64, none⟩ : Column))].map Prod.fst).toFinset ∪
          [sampleOwner].foldr (fun b acc => b.fieldNames ∪ acc) ∅ ∧
      (∀ n ∈ derivedVol.fieldNames, ∃ d,
        lookupDescr derivedVol.descrs n = some d ∧
        d.name = n ∧ d.resolve derivedVol ∈ derivedVol.columns) ∧
      derivedVol.columns.card = derivedVol.fieldNames.card ∧
      (∀ c ∈ derivedVol.columns, c.dataset = derivedVol)) :=
  ⟨rfl,
    fun b hb => by
      rw [List.mem_singleton.mp hb]
      exact sampleOwner_WF,
    C6_inheritance_union 3 "DerivedVol" [sampleOwner] none
      [("volume", ⟨.float64, none⟩)] derivedVol rfl
      (fun b hb => by
        rw [List.mem_singleton.mp hb]
        exact sampleOwner_WF)⟩

/-- Witness for C10 at the sample owner and a freshly built empty schema
type over no bases. -/
theorem C10_domain_from_owner_witness :
    lookupDescr sampleOwner.descrs "price" = some sampleDescr ∧
    DataSetMeta.new 1 "EmptyData" [] none [] =
      .ok { id := 1, name := "EmptyData", domain := none, descrs := [],
            column_names := [] } ∧
    (sampleDescr.resolve sampleOwner).domain = sampleOwner.domain :=
  ⟨by decide, rfl,
    (C10_domain_from_owner sampleOwner "price" sampleDescr (by decide)
      1 "EmptyData" [] []
      { id := 1, name := "EmptyData", domain := none, descrs := [],
        column_names := [] }
      rfl (by simp)).1⟩

end Zipline
